import Mathlib

/-!
Shallow embedding of the security-tracker ingestion core:
the sqlite schema helpers in app/database/schema.py and the
reconciliation pipeline in app/components/data_processor.py.

Dates are modelled as natural numbers (days); a date plus a number of
days is plain addition, mirroring datetime + timedelta.  Table rows are
(id, record) pairs in insertion order; AUTOINCREMENT ids are carried as
explicit next-id counters.  INSERT OR IGNORE followed by SELECT becomes
find-or-append.  The sqlite connection is threaded as an explicit
database value.
-/

namespace SecurityTracker

/-- A CVSS cell as the ingestion code observes it through float() and
Python truthiness: a value float() converts to the rational q (truthy
iff q is nonzero), an absent/empty value (float() fails, falsy: None or
the empty string), or a non-empty unparseable value (float() raises
ValueError, truthy). -/
inductive Cvss where
  | num (q : ℚ)
  | blank
  | malformed (s : String)
deriving DecidableEq

/-- get_cvss_range from data_processor.py: threshold the parsed score;
on a parse failure, falsy input gives Info and truthy input gives
Unknown. -/
def get_cvss_range : Cvss → String
  | .num q =>
      if q ≥ 9 then "Critical"
      else if q ≥ 7 then "High"
      else if q ≥ 4 then "Medium"
      else if q > 0 then "Low"
      else "Info"
  | .blank => "Info"
  | .malformed _ => "Unknown"

/-- The severity_mapping dict inside calculate_due_date. -/
def severity_mapping : List (String × Nat) :=
  [("Critical", 15), ("High", 30), ("Medium", 90), ("Low", 180), ("Info", 180)]

/-- calculate_due_date from data_processor.py: the analysis date plus
the window for the severity band, defaulting to 180 days when the band
is missing from the dict (the Unknown band). -/
def calculate_due_date (cvss : Cvss) (analysis_date : Nat) : Nat :=
  analysis_date + ((severity_mapping.lookup (get_cvss_range cvss)).getD 180)

/-- One row of the benchmark table (schema.py), with the unique key
(benchmark, finding_id). -/
structure Benchmark where
  benchmark : String
  finding_id : String
  level : String
  cvss : Option ℚ
  title : String
  description : String
  rationale : String
  refs : String
deriving DecidableEq

/-- One row of the findings table, with the unique key
(benchmark_id, failure). -/
structure Finding where
  benchmark_id : Nat
  failure : String
deriving DecidableEq

/-- One row of the remediations table. -/
structure Remediation where
  benchmark_id : Nat
  first_seen_scan : Nat
  resolved_in_scan : Option Nat
  state : String
  due_date : Nat
deriving DecidableEq

/-- One row of the issues table. -/
structure Issue where
  benchmark_id : Nat
  due_date : Nat
  created_at : Nat
  status : String
  resolved_at : Option Nat
deriving DecidableEq

/-- The whole store: each table as an (id, record) list in insertion
order, link tables as id-pair lists, and the AUTOINCREMENT counters. -/
structure DB where
  benchmarks : List (Nat × Benchmark)
  findings : List (Nat × Finding)
  scans : List (Nat × Nat)
  remediations : List (Nat × Remediation)
  remediation_findings : List (Nat × Nat)
  issues : List (Nat × Issue)
  issue_remediations : List (Nat × Nat)
  next_benchmark_id : Nat
  next_finding_id : Nat
  next_scan_id : Nat
  next_remediation_id : Nat
  next_issue_id : Nat
deriving DecidableEq

/-- The freshly initialised store (init_db). -/
def emptyDB : DB :=
  ⟨[], [], [], [], [], [], [], 1, 1, 1, 1, 1⟩

/-- get_or_create_benchmark: INSERT OR IGNORE keyed by
(benchmark, finding_id), then SELECT the id. -/
def get_or_create_benchmark (db : DB) (bd : Benchmark) : DB × Nat :=
  match db.benchmarks.find?
      (fun p => decide (p.2.benchmark = bd.benchmark ∧ p.2.finding_id = bd.finding_id)) with
  | some p => (db, p.1)
  | none =>
      ({ db with
          benchmarks := db.benchmarks ++ [(db.next_benchmark_id, bd)],
          next_benchmark_id := db.next_benchmark_id + 1 },
        db.next_benchmark_id)

/-- get_or_create_scan: INSERT OR IGNORE keyed by the unique scan date,
then SELECT the id; an existing date is silently reused. -/
def get_or_create_scan (db : DB) (scan_date : Nat) : DB × Nat :=
  match db.scans.find? (fun p => decide (p.2 = scan_date)) with
  | some p => (db, p.1)
  | none =>
      ({ db with
          scans := db.scans ++ [(db.next_scan_id, scan_date)],
          next_scan_id := db.next_scan_id + 1 },
        db.next_scan_id)

/-- insert_finding: INSERT OR IGNORE keyed by (benchmark_id, failure),
then SELECT the id. -/
def insert_finding (db : DB) (benchmark_id : Nat) (failure : String) : DB × Nat :=
  match db.findings.find?
      (fun p => decide (p.2.benchmark_id = benchmark_id ∧ p.2.failure = failure)) with
  | some p => (db, p.1)
  | none =>
      ({ db with
          findings := db.findings ++ [(db.next_finding_id, ⟨benchmark_id, failure⟩)],
          next_finding_id := db.next_finding_id + 1 },
        db.next_finding_id)

/-- create_remediation: insert a new open remediation row and return
its id. -/
def create_remediation (db : DB) (benchmark_id scan_id due_date : Nat) : DB × Nat :=
  ({ db with
      remediations :=
        db.remediations ++ [(db.next_remediation_id,
          ⟨benchmark_id, scan_id, none, "open", due_date⟩)],
      next_remediation_id := db.next_remediation_id + 1 },
    db.next_remediation_id)

/-- link_finding_to_remediation: INSERT OR IGNORE into the
remediation_findings link table. -/
def link_finding_to_remediation (db : DB) (remediation_id finding_id : Nat) : DB :=
  if (remediation_id, finding_id) ∈ db.remediation_findings then db
  else { db with
    remediation_findings := db.remediation_findings ++ [(remediation_id, finding_id)] }

/-- check_if_scan_exists: SELECT by date, test for a row. -/
def check_if_scan_exists (db : DB) (scan_date : Nat) : Bool :=
  (db.scans.find? (fun p => decide (p.2 = scan_date))).isSome

/-- mark_remediations_resolved_if_not_in_list: with an empty active set,
flip every open remediation to resolved (without stamping
resolved_in_scan); otherwise flip every open remediation whose id is
not in the active set and stamp it with the current scan. -/
def mark_remediations_resolved_if_not_in_list
    (db : DB) (scan_id : Nat) (active : List Nat) : DB :=
  if active.isEmpty then
    { db with remediations := db.remediations.map (fun p =>
        if p.2.state = "open" then (p.1, { p.2 with state := "resolved" }) else p) }
  else
    { db with remediations := db.remediations.map (fun p =>
        if p.2.state = "open" ∧ p.1 ∉ active then
          (p.1, { p.2 with state := "resolved", resolved_in_scan := some scan_id })
        else p) }

/-- mark_issues_as_resolved_if_no_open_remediations: select the open
issues with no linked open remediation, then stamp them resolved at the
given date.  Defined in schema.py but never invoked by the ingestion
pipeline. -/
def mark_issues_as_resolved_if_no_open_remediations
    (db : DB) (resolved_date : Nat) : DB :=
  { db with issues := db.issues.map (fun p =>
      if p.2.status = "open" ∧
          ¬ ∃ q ∈ db.remediations, q.2.state = "open" ∧
            (p.1, q.1) ∈ db.issue_remediations then
        (p.1, { p.2 with status := "resolved", resolved_at := some resolved_date })
      else p) }

/-- create_issue_for_remediations: insert one open issue and link every
remediation id of the group to it. -/
def create_issue_for_remediations
    (db : DB) (remediation_ids : List Nat) (benchmark_id created_at due_date : Nat) : DB :=
  { db with
      issues := db.issues ++
        [(db.next_issue_id, ⟨benchmark_id, due_date, created_at, "open", none⟩)],
      issue_remediations := db.issue_remediations ++
        remediation_ids.map (fun r => (db.next_issue_id, r)),
      next_issue_id := db.next_issue_id + 1 }

/-- One validated upload row as process_upload_dataframe reads it after
column mapping. -/
structure Row where
  benchmark : String
  id : String
  level : String
  cvss : Cvss
  title : String
  failures : String
  description : String
  rationale : String
  refs : String
deriving DecidableEq

/-- The counts process_upload_dataframe returns. -/
structure ScanResult where
  new : Nat
  existing : Nat
  resolved : Nat
deriving DecidableEq

/-- The expression float(row[cvss]) if row[cvss] else None inside the
benchmark_data tuple: a falsy cell becomes NULL without calling
float(), a truthy numeric cell converts, and a truthy unparseable cell
raises ValueError. -/
def cvss_db_value : Cvss → Except String (Option ℚ)
  | .num q => .ok (if q = 0 then none else some q)
  | .blank => .ok none
  | .malformed s => .error ("could not convert string to float: " ++ s)

/-- The open-remediation probe of the row loop: SELECT r.id FROM
remediations JOIN remediation_findings WHERE r.benchmark_id = b AND
r.state = open AND rf.finding_id = f. -/
def find_open_remediation (db : DB) (benchmark_id finding_id : Nat) : Option Nat :=
  (db.remediations.find? (fun p =>
      decide (p.2.benchmark_id = benchmark_id ∧ p.2.state = "open" ∧
        (p.1, finding_id) ∈ db.remediation_findings))).map Prod.fst

/-- Python set.add on the active-remediation-id set. -/
def addSet (l : List Nat) (x : Nat) : List Nat :=
  if x ∈ l then l else l ++ [x]

/-- The remediations_needing_issues dict update: append the new
remediation id to the list at key (benchmark_id, due_date), inserting
the key at the end when absent (Python dict insertion order). -/
def add_to_group (groups : List ((Nat × Nat) × List Nat))
    (key : Nat × Nat) (rid : Nat) : List ((Nat × Nat) × List Nat) :=
  if (groups.find? (fun p => decide (p.1 = key))).isSome then
    groups.map (fun p => if p.1 = key then (p.1, p.2 ++ [rid]) else p)
  else groups ++ [(key, [rid])]

/-- The mutable locals of the row loop in process_upload_dataframe. -/
structure LoopState where
  db : DB
  active_remediation_ids : List Nat
  remediations_needing_issues : List ((Nat × Nat) × List Nat)
  new_count : Nat
  existing_count : Nat
deriving DecidableEq

/-- The body of the per-failure loop: insert the finding, look for an
open remediation of the (benchmark, finding) pair; reuse it or create a
new remediation, link the finding, register it as active and as needing
an issue. -/
def process_failure (analysis_date : Nat) (cvss : Cvss) (scan_id benchmark_id : Nat)
    (st : LoopState) (failure : String) : LoopState :=
  let fr := insert_finding st.db benchmark_id failure
  match find_open_remediation fr.1 benchmark_id fr.2 with
  | some rid =>
      { st with
          db := fr.1,
          active_remediation_ids := addSet st.active_remediation_ids rid,
          existing_count := st.existing_count + 1 }
  | none =>
      let due_date := calculate_due_date cvss analysis_date
      let cr := create_remediation fr.1 benchmark_id scan_id due_date
      let db3 := link_finding_to_remediation cr.1 cr.2 fr.2
      { db := db3,
        active_remediation_ids := addSet st.active_remediation_ids cr.2,
        remediations_needing_issues :=
          add_to_group st.remediations_needing_issues (benchmark_id, due_date) cr.2,
        new_count := st.new_count + 1,
        existing_count := st.existing_count }

/-- Python str.split on a single newline separator: every newline ends
a field, empty fields are kept. -/
def pySplitNewline (s : String) : List String :=
  (s.data.foldr
      (fun c acc =>
        if c = '\n' then [] :: acc
        else match acc with
          | [] => [[c]]
          | h :: t => (c :: h) :: t)
      [[]]).map String.mk

/-- Python whitespace test used by str.strip. -/
def isPySpace (c : Char) : Bool :=
  c = ' ' ∨ c = '\t' ∨ c = '\n' ∨ c = '\r' ∨ c = '\x0b' ∨ c = '\x0c'

/-- Python str.strip: drop leading and trailing whitespace. -/
def pyStrip (s : String) : String :=
  String.mk (((s.data.dropWhile isPySpace).reverse.dropWhile isPySpace).reverse)

/-- str(row[failures]).split on newline, strip each entry, drop the
blank ones (the loop body strips each failure and skips the empty
ones). -/
def split_failures (s : String) : List String :=
  ((pySplitNewline s).map pyStrip).filter (fun f => !(f == ""))

/-- One iteration of the row loop: build the benchmark_data tuple
(which converts the CVSS cell and can raise), get or create the
benchmark, then run the failure loop. -/
def process_row (analysis_date scan_id : Nat) (st : LoopState) (row : Row) :
    Except String LoopState := do
  let cv ← cvss_db_value row.cvss
  let gb := get_or_create_benchmark st.db
    ⟨row.benchmark, row.id, row.level, cv, row.title, row.description,
      row.rationale, row.refs⟩
  .ok ((split_failures row.failures).foldl
        (process_failure analysis_date row.cvss scan_id gb.2) { st with db := gb.1 })

/-- The row loop of process_upload_dataframe: get or create the scan,
then fold the rows over the loop state. -/
def run_rows (db : DB) (rows : List Row) (analysis_date : Nat) :
    Except String LoopState :=
  rows.foldlM (process_row analysis_date (get_or_create_scan db analysis_date).2)
    ⟨(get_or_create_scan db analysis_date).1, [], [], 0, 0⟩

/-- The per-group issue loop after the rows: one
create_issue_for_remediations call per collected (benchmark, due date)
group, in dict order. -/
def issue_creation_step (analysis_date : Nat) (st : LoopState) : DB :=
  st.remediations_needing_issues.foldl
    (fun d p => create_issue_for_remediations d p.2 p.1.1 analysis_date p.1.2) st.db

/-- The closure step after the issue loop: resolve the open
remediations absent from the active set. -/
def upload_closure_step (scan_id analysis_date : Nat) (st : LoopState) : DB :=
  mark_remediations_resolved_if_not_in_list (issue_creation_step analysis_date st)
    scan_id st.active_remediation_ids

/-- The tail of process_upload_dataframe: issue loop, closure step, and
the count of remediations stamped resolved in this scan. -/
def upload_finish (scan_id analysis_date : Nat) (st : LoopState) : DB × ScanResult :=
  (upload_closure_step scan_id analysis_date st,
    ⟨st.new_count, st.existing_count,
      ((upload_closure_step scan_id analysis_date st).remediations.filter
        (fun p => decide (p.2.resolved_in_scan = some scan_id))).length⟩)

/-- process_upload_dataframe: get or create the scan, run the row loop,
create one issue per (benchmark, due date) group, resolve the open
remediations absent from the active set, and count the remediations
stamped with this scan. -/
def process_upload_dataframe (db : DB) (rows : List Row) (analysis_date : Nat) :
    Except String (DB × ScanResult) :=
  (run_rows db rows analysis_date).map
    (upload_finish (get_or_create_scan db analysis_date).2 analysis_date)

/-- One row of the multi-scan CSV, already carrying its parsed date. -/
structure DatedRow where
  date : Nat
  row : Row
deriving DecidableEq

/-- process_multiple_scan_upload: iterate the distinct dates in sorted
order; a date whose scan already exists is skipped with a notice,
otherwise its rows go through process_upload_dataframe and the counts
accumulate. -/
def process_multiple_scan_upload (db : DB) (rows : List DatedRow) :
    Except String (DB × ScanResult) := do
  let sorted_dates := ((rows.map (fun r => r.date)).dedup).mergeSort (fun a b => a ≤ b)
  sorted_dates.foldlM
    (fun acc date =>
      if check_if_scan_exists acc.1 date then .ok acc
      else do
        let this_update ← process_upload_dataframe acc.1
          ((rows.filter (fun r => r.date == date)).map (fun r => r.row)) date
        .ok (this_update.1,
          ⟨acc.2.new + this_update.2.new,
            acc.2.existing + this_update.2.existing,
            acc.2.resolved + this_update.2.resolved⟩))
    (db, ⟨0, 0, 0⟩)

/-- The prefix of process_upload_dataframe that has already been made
durable when a storage failure strikes between the per-group issue
creation step and the remediation closure step: the helper
create_issue_for_remediations ends in an explicit commit of the
connection, so everything up to and including the issue loop is
committed at that point. -/
def upload_committed_at_issue_step (db : DB) (rows : List Row) (analysis_date : Nat) :
    Except String DB :=
  (run_rows db rows analysis_date).map (issue_creation_step analysis_date)

/-- The database state an ingestion run leaves durably committed: on
success everything up to the final commit; on an error the run raises
out of the row loop, which precedes every commit call of the helpers,
so the connection closes with the transaction pending and the pre-scan
state persists. -/
def upload_committed_state (db : DB) (rows : List Row) (analysis_date : Nat) : DB :=
  match process_upload_dataframe db rows analysis_date with
  | .ok d => d.1
  | .error _ => db

/-! Invariant vocabulary for the reconciliation proofs. -/

/-- Remediation i is an open remediation of the (benchmark, finding)
pair (b, f): it is an open row owned by benchmark b and linked to
finding f through the link table. -/
def open_rem_for (db : DB) (b f i : Nat) : Prop :=
  ∃ r, (i, r) ∈ db.remediations ∧ r.benchmark_id = b ∧ r.state = "open" ∧
    (i, f) ∈ db.remediation_findings

/-- The core invariant of the data model: at most one open remediation
per (benchmark, finding) pair at any time. -/
def at_most_one_open (db : DB) : Prop :=
  ∀ b f i j, open_rem_for db b f i → open_rem_for db b f j → i = j

/-- Structural well-formedness of the store that sqlite provides via
AUTOINCREMENT primary keys: every remediation id and every remediation
id used by the link table is below the next fresh id, and remediation
ids are pairwise distinct. -/
structure DBWF (db : DB) : Prop where
  rem_lt : ∀ p ∈ db.remediations, p.1 < db.next_remediation_id
  link_lt : ∀ p ∈ db.remediation_findings, p.1 < db.next_remediation_id
  rem_nodup : (db.remediations.map Prod.fst).Nodup
  issue_link_lt : ∀ p ∈ db.issue_remediations, p.1 < db.next_issue_id

/-- The list of remediation ids stored under a key of a group dict. -/
def groupOfList (gs : List ((Nat × Nat) × List Nat)) (k : Nat × Nat) : List Nat :=
  ((gs.find? (fun p => decide (p.1 = k))).map Prod.snd).getD []

/-- Invariant of the row loop, relative to the next remediation id
oldN at the start of the scan and the id of the current scan: the store
is well formed, ids never shrink, the one-open-per-pair invariant
holds, every remediation created by this scan is an open row of the
current scan that is registered as active and as needing an issue, and
the issue groups hold exactly scan-created remediations matching their
key, under pairwise distinct keys. -/
structure LoopInv (oldN scan_id : Nat) (st : LoopState) : Prop where
  wf : DBWF st.db
  old_le : oldN ≤ st.db.next_remediation_id
  one_open : at_most_one_open st.db
  new_rem : ∀ i r, (i, r) ∈ st.db.remediations → oldN ≤ i →
    r.first_seen_scan = scan_id ∧ r.resolved_in_scan = none ∧ r.state = "open" ∧
    i ∈ st.active_remediation_ids ∧
      i ∈ groupOfList st.remediations_needing_issues (r.benchmark_id, r.due_date)
  group_mem : ∀ k l, (k, l) ∈ st.remediations_needing_issues → ∀ i ∈ l,
    ∃ r, (i, r) ∈ st.db.remediations ∧ oldN ≤ i ∧ r.benchmark_id = k.1 ∧ r.due_date = k.2
  group_keys_nodup : (st.remediations_needing_issues.map Prod.fst).Nodup

/-- The link rows the per-group issue loop appends when the next issue
id is n: the j-th group is linked to issue n + j. -/
def issue_links_from (n : Nat) : List ((Nat × Nat) × List Nat) → List (Nat × Nat)
  | [] => []
  | g :: gs => g.2.map (fun r => (n, r)) ++ issue_links_from (n + 1) gs

/-! Concrete scenario inputs and stores used by the counterexamples
and witnesses. -/

/-- A failing rule row: benchmark CIS 1.1, CVSS 10, one failing host. -/
def rowA : Row := ⟨"CIS", "1.1", "L1", Cvss.num 10, "t", "host-1", "d", "r", ""⟩

/-- A second failing host under the same benchmark with the same
CVSS. -/
def rowSame : Row := ⟨"CIS", "1.1", "L1", Cvss.num 10, "t", "host-9", "d", "r", ""⟩

/-- A second failing host under the same benchmark with a different
CVSS, hence a different computed due date. -/
def rowDiff : Row := ⟨"CIS", "1.1", "L1", Cvss.num 5, "t", "host-9", "d", "r", ""⟩

/-- A row of an unrelated benchmark. -/
def rowOther : Row := ⟨"CIS2", "2.2", "L1", Cvss.num 10, "t", "host-2", "d", "r", ""⟩

/-- A row whose CVSS cell is a non-empty unparseable string. -/
def rowBad : Row := ⟨"CIS", "1.1", "L1", Cvss.malformed "abc", "t", "host-1", "d", "r", ""⟩

/-- A second row with a different unparseable CVSS cell. -/
def rowBad2 : Row := ⟨"CIS", "1.1", "L1", Cvss.malformed "xyz", "t", "host-1", "d", "r", ""⟩

/-- The store after ingesting rowA on date 100 into the fresh store:
scan 1, benchmark 1, finding 1, open remediation 1 due 115, issue 1
linked to it. -/
def db_after_scan1 : DB :=
  match process_upload_dataframe emptyDB [rowA] 100 with
  | .ok d => d.1
  | .error _ => emptyDB

/-- The store after a second scan on date 200 with no rows at all:
everything open is closed by the empty-active-set branch. -/
def db_after_scan2 : DB :=
  match process_upload_dataframe db_after_scan1 [] 200 with
  | .ok d => d.1
  | .error _ => emptyDB

/-- The store after re-processing the already existing date 100
through the single-scan path with a row of an unrelated benchmark. -/
def db_rescan : DB :=
  match process_upload_dataframe db_after_scan1 [rowOther] 100 with
  | .ok d => d.1
  | .error _ => emptyDB

/-- The committed store if ingesting rowA into the fresh store aborts
between the issue-creation commit and the closure step. -/
def db_mid_scan1 : DB :=
  match upload_committed_at_issue_step emptyDB [rowA] 100 with
  | .ok d => d
  | .error _ => emptyDB

/-- The store after ingesting two equal-CVSS rows of one benchmark on
date 100 into the fresh store. -/
def db_pair : DB :=
  match process_upload_dataframe emptyDB [rowA, rowSame] 100 with
  | .ok d => d.1
  | .error _ => emptyDB

/-! Helper lemmas shared by the claim proofs. -/

theorem insert_finding_frame (db : DB) (b : Nat) (s : String) :
    ((insert_finding db b s).1).remediations = db.remediations ∧
    ((insert_finding db b s).1).remediation_findings = db.remediation_findings ∧
    ((insert_finding db b s).1).next_remediation_id = db.next_remediation_id ∧
    ((insert_finding db b s).1).issues = db.issues ∧
    ((insert_finding db b s).1).issue_remediations = db.issue_remediations ∧
    ((insert_finding db b s).1).next_issue_id = db.next_issue_id := by
  unfold insert_finding
  split <;> exact ⟨rfl, rfl, rfl, rfl, rfl, rfl⟩

theorem get_or_create_benchmark_frame (db : DB) (bd : Benchmark) :
    ((get_or_create_benchmark db bd).1).remediations = db.remediations ∧
    ((get_or_create_benchmark db bd).1).remediation_findings = db.remediation_findings ∧
    ((get_or_create_benchmark db bd).1).next_remediation_id = db.next_remediation_id ∧
    ((get_or_create_benchmark db bd).1).issues = db.issues ∧
    ((get_or_create_benchmark db bd).1).issue_remediations = db.issue_remediations ∧
    ((get_or_create_benchmark db bd).1).next_issue_id = db.next_issue_id := by
  unfold get_or_create_benchmark
  split <;> exact ⟨rfl, rfl, rfl, rfl, rfl, rfl⟩

theorem get_or_create_scan_frame (db : DB) (d : Nat) :
    ((get_or_create_scan db d).1).remediations = db.remediations ∧
    ((get_or_create_scan db d).1).remediation_findings = db.remediation_findings ∧
    ((get_or_create_scan db d).1).next_remediation_id = db.next_remediation_id ∧
    ((get_or_create_scan db d).1).issues = db.issues ∧
    ((get_or_create_scan db d).1).issue_remediations = db.issue_remediations ∧
    ((get_or_create_scan db d).1).next_issue_id = db.next_issue_id := by
  unfold get_or_create_scan
  split <;> exact ⟨rfl, rfl, rfl, rfl, rfl, rfl⟩

theorem mem_addSet_self (l : List Nat) (x : Nat) : x ∈ addSet l x := by
  unfold addSet
  split
  · assumption
  · simp

theorem mem_addSet_of_mem {l : List Nat} {y : Nat} (x : Nat) (h : y ∈ l) :
    y ∈ addSet l x := by
  unfold addSet
  split
  · exact h
  · simp [h]

theorem open_rem_for_congr {db1 db2 : DB} (b f i : Nat)
    (h1 : db1.remediations = db2.remediations)
    (h2 : db1.remediation_findings = db2.remediation_findings) :
    open_rem_for db1 b f i ↔ open_rem_for db2 b f i := by
  unfold open_rem_for
  rw [h1, h2]

theorem keyed_mem_unique : ∀ {α : Type} {l : List (Nat × α)} {i : Nat} {a b : α},
    (l.map Prod.fst).Nodup → (i, a) ∈ l → (i, b) ∈ l → a = b := by
  intro α l
  induction l with
  | nil => intro i a b _ ha; cases ha
  | cons p t ih =>
      intro i a b hnd ha hb
      rw [List.map_cons, List.nodup_cons] at hnd
      rw [List.mem_cons] at ha hb
      rcases ha with ha | ha
      · rcases hb with hb | hb
        · rw [← ha] at hb
          injection hb with h1 h2
          exact h2.symm
        · exfalso
          apply hnd.1
          have hp : p.1 = i := by rw [← ha]
          rw [hp]
          exact List.mem_map_of_mem Prod.fst hb
      · rcases hb with hb | hb
        · exfalso
          apply hnd.1
          have hp : p.1 = i := by rw [← hb]
          rw [hp]
          exact List.mem_map_of_mem Prod.fst ha
        · exact ih hnd.2 ha hb

theorem find_open_remediation_none {db : DB} {b f : Nat}
    (h : find_open_remediation db b f = none) (i : Nat) : ¬ open_rem_for db b f i := by
  rintro ⟨r, hmem, hb, hs, hl⟩
  unfold find_open_remediation at h
  rw [Option.map_eq_none'] at h
  have := List.find?_eq_none.mp h (i, r) hmem
  simp only [decide_eq_true_eq] at this
  exact this ⟨hb, hs, hl⟩

theorem update_group_comp (key : Nat × Nat) (rid : Nat) (k : Nat × Nat) :
    ((fun p : (Nat × Nat) × List Nat => decide (p.1 = k)) ∘
        (fun p : (Nat × Nat) × List Nat => if p.1 = key then (p.1, p.2 ++ [rid]) else p))
      = (fun p : (Nat × Nat) × List Nat => decide (p.1 = k)) := by
  funext p
  by_cases h : p.1 = key <;> simp [h]

theorem groupOfList_add_self (gs : List ((Nat × Nat) × List Nat)) (key : Nat × Nat)
    (rid : Nat) :
    groupOfList (add_to_group gs key rid) key = groupOfList gs key ++ [rid] := by
  unfold add_to_group groupOfList
  split
  · rename_i hs
    obtain ⟨p, hp⟩ := Option.isSome_iff_exists.mp hs
    have hpk : p.1 = key := by simpa using List.find?_some hp
    rw [List.find?_map, update_group_comp, hp]
    simp [hpk]
  · rename_i hn
    have hns : gs.find? (fun p => decide (p.1 = key)) = none :=
      Option.not_isSome_iff_eq_none.mp hn
    rw [List.find?_append, hns]
    simp

theorem groupOfList_add_ne (gs : List ((Nat × Nat) × List Nat)) {key k : Nat × Nat}
    (rid : Nat) (h : k ≠ key) :
    groupOfList (add_to_group gs key rid) k = groupOfList gs k := by
  unfold add_to_group groupOfList
  split
  · rw [List.find?_map, update_group_comp]
    cases hq : gs.find? (fun p => decide (p.1 = k)) with
    | none => simp
    | some q =>
        have hqk : q.1 = k := by simpa using List.find?_some hq
        have : q.1 ≠ key := by rw [hqk]; exact h
        simp [this]
  · rw [List.find?_append]
    have : ¬ (key = k) := fun he => h he.symm
    simp [this]

theorem groupOfList_add_mono {gs : List ((Nat × Nat) × List Nat)} {k : Nat × Nat}
    {i : Nat} (key : Nat × Nat) (rid : Nat) (h : i ∈ groupOfList gs k) :
    i ∈ groupOfList (add_to_group gs key rid) k := by
  by_cases hk : k = key
  · subst hk
    rw [groupOfList_add_self]
    exact List.mem_append_left _ h
  · rw [groupOfList_add_ne gs rid hk]
    exact h

theorem add_to_group_mem_cases {gs : List ((Nat × Nat) × List Nat)} {k key : Nat × Nat}
    {l : List Nat} {rid : Nat}
    (h : (k, l) ∈ add_to_group gs key rid) :
    ((k, l) ∈ gs) ∨
      (∃ l0, (k, l0) ∈ gs ∧ l = l0 ++ [rid] ∧ k = key) ∨
      (l = [rid] ∧ k = key) := by
  unfold add_to_group at h
  split at h
  · obtain ⟨p, hp, he⟩ := List.mem_map.mp h
    by_cases hk : p.1 = key
    · rw [if_pos hk] at he
      injection he with he1 he2
      refine Or.inr (Or.inl ⟨p.2, ?_, he2.symm, ?_⟩)
      · rw [← he1]; exact hp
      · rw [← he1]; exact hk
    · rw [if_neg hk] at he
      exact Or.inl (he ▸ hp)
  · rw [List.mem_append] at h
    rcases h with h | h
    · exact Or.inl h
    · simp only [List.mem_singleton] at h
      injection h with h1 h2
      exact Or.inr (Or.inr ⟨h2, h1⟩)

theorem add_to_group_keys_nodup {gs : List ((Nat × Nat) × List Nat)} (key : Nat × Nat)
    (rid : Nat) (h : (gs.map Prod.fst).Nodup) :
    ((add_to_group gs key rid).map Prod.fst).Nodup := by
  unfold add_to_group
  split
  · have hkeys : (gs.map (fun p => if p.1 = key then (p.1, p.2 ++ [rid]) else p)).map Prod.fst
        = gs.map Prod.fst := by
      rw [List.map_map]
      congr 1
      funext p
      by_cases hk : p.1 = key <;> simp [hk]
    rw [hkeys]
    exact h
  · rename_i hn
    have hns : gs.find? (fun p => decide (p.1 = key)) = none :=
      Option.not_isSome_iff_eq_none.mp hn
    have hkey : key ∉ gs.map Prod.fst := by
      intro hk
      obtain ⟨p, hp, he⟩ := List.mem_map.mp hk
      have := List.find?_eq_none.mp hns p hp
      simp [he] at this
    rw [List.map_append]
    simp [List.nodup_append, h, hkey]

theorem create_and_link (db : DB)
    (hlink : ∀ p ∈ db.remediation_findings, p.1 < db.next_remediation_id)
    (b scan_id dd f : Nat) :
    link_finding_to_remediation (create_remediation db b scan_id dd).1
        (create_remediation db b scan_id dd).2 f =
      { db with
          remediations := db.remediations ++
            [(db.next_remediation_id, ⟨b, scan_id, none, "open", dd⟩)],
          remediation_findings := db.remediation_findings ++ [(db.next_remediation_id, f)],
          next_remediation_id := db.next_remediation_id + 1 } := by
  unfold create_remediation link_finding_to_remediation
  dsimp only
  rw [if_neg]
  intro hmem
  exact absurd (hlink _ hmem) (lt_irrefl _)

theorem open_rem_for_append {db : DB}
    (hrem : ∀ p ∈ db.remediations, p.1 < db.next_remediation_id)
    (hlink : ∀ p ∈ db.remediation_findings, p.1 < db.next_remediation_id)
    (b scan_id dd f bb ff ii : Nat) :
    open_rem_for
        { db with
            remediations := db.remediations ++
              [(db.next_remediation_id, ⟨b, scan_id, none, "open", dd⟩)],
            remediation_findings := db.remediation_findings ++ [(db.next_remediation_id, f)],
            next_remediation_id := db.next_remediation_id + 1 } bb ff ii ↔
      (open_rem_for db bb ff ii ∨ (ii = db.next_remediation_id ∧ bb = b ∧ ff = f)) := by
  unfold open_rem_for
  constructor
  · rintro ⟨r, hr, hb, hs, hl⟩
    dsimp only at hr hl
    rw [List.mem_append] at hr hl
    rcases hr with hr | hr
    · rcases hl with hl | hl
      · exact Or.inl ⟨r, hr, hb, hs, hl⟩
      · simp only [List.mem_singleton] at hl
        injection hl with hl1 hl2
        exact absurd (hrem _ hr) (by rw [hl1]; exact lt_irrefl _)
    · simp only [List.mem_singleton] at hr
      injection hr with hr1 hr2
      rcases hl with hl | hl
      · exact absurd (hlink _ hl) (by rw [hr1]; exact lt_irrefl _)
      · simp only [List.mem_singleton] at hl
        injection hl with hl1 hl2
        refine Or.inr ⟨hr1, ?_, hl2⟩
        rw [← hb, hr2]
  · rintro (⟨r, hr, hb, hs, hl⟩ | ⟨h1, h2, h3⟩)
    · refine ⟨r, ?_, hb, hs, ?_⟩
      · dsimp only
        exact List.mem_append_left _ hr
      · dsimp only
        exact List.mem_append_left _ hl
    · refine ⟨⟨b, scan_id, none, "open", dd⟩, ?_, h2.symm, rfl, ?_⟩
      · dsimp only
        apply List.mem_append_right
        rw [h1]
        exact List.mem_singleton.mpr rfl
      · dsimp only
        apply List.mem_append_right
        rw [h1, h3]
        exact List.mem_singleton.mpr rfl

theorem dbwf_empty : DBWF emptyDB := by
  refine ⟨?_, ?_, ?_, ?_⟩ <;> simp [emptyDB]

theorem one_open_empty : at_most_one_open emptyDB := by
  rintro b f i j ⟨r, hr, -⟩
  simp [emptyDB] at hr

theorem create_remediation_snd (db : DB) (b s d : Nat) :
    (create_remediation db b s d).2 = db.next_remediation_id := rfl

theorem process_failure_inv {oldN scan_id analysis_date : Nat} {cvss : Cvss}
    {benchmark_id : Nat} {st : LoopState} (failure : String)
    (hinv : LoopInv oldN scan_id st) :
    LoopInv oldN scan_id (process_failure analysis_date cvss scan_id benchmark_id st failure) := by
  obtain ⟨hfrem, hflink, hfnext, hfiss, hfir, hfni⟩ :=
    insert_finding_frame st.db benchmark_id failure
  unfold process_failure
  simp only []
  split
  · rename_i rid heq
    refine ⟨⟨?_, ?_, ?_, ?_⟩, ?_, ?_, ?_, ?_, ?_⟩
    · dsimp only
      rw [hfrem, hfnext]
      exact hinv.wf.rem_lt
    · dsimp only
      rw [hflink, hfnext]
      exact hinv.wf.link_lt
    · dsimp only
      rw [hfrem]
      exact hinv.wf.rem_nodup
    · dsimp only
      rw [hfir, hfni]
      exact hinv.wf.issue_link_lt
    · dsimp only
      rw [hfnext]
      exact hinv.old_le
    · intro b f i j h1 h2
      dsimp only at h1 h2
      exact hinv.one_open b f i j
        ((open_rem_for_congr b f i hfrem hflink).mp h1)
        ((open_rem_for_congr b f j hfrem hflink).mp h2)
    · intro i r hm hi
      dsimp only at hm ⊢
      rw [hfrem] at hm
      obtain ⟨e1, e2, e3, e4, e5⟩ := hinv.new_rem i r hm hi
      exact ⟨e1, e2, e3, mem_addSet_of_mem _ e4, e5⟩
    · intro k l hkl i hi
      dsimp only at hkl ⊢
      obtain ⟨r, hr, hle, hb2, hd2⟩ := hinv.group_mem k l hkl i hi
      refine ⟨r, ?_, hle, hb2, hd2⟩
      rw [hfrem]
      exact hr
    · dsimp only
      exact hinv.group_keys_nodup
  · rename_i heq
    have hrem1 : ∀ p ∈ (insert_finding st.db benchmark_id failure).1.remediations,
        p.1 < (insert_finding st.db benchmark_id failure).1.next_remediation_id := by
      rw [hfrem, hfnext]
      exact hinv.wf.rem_lt
    have hlink1 : ∀ p ∈ (insert_finding st.db benchmark_id failure).1.remediation_findings,
        p.1 < (insert_finding st.db benchmark_id failure).1.next_remediation_id := by
      rw [hflink, hfnext]
      exact hinv.wf.link_lt
    rw [create_and_link _ hlink1 benchmark_id scan_id (calculate_due_date cvss analysis_date)
      (insert_finding st.db benchmark_id failure).2, create_remediation_snd]
    have hNle : oldN ≤ (insert_finding st.db benchmark_id failure).1.next_remediation_id := by
      rw [hfnext]
      exact hinv.old_le
    refine ⟨⟨?_, ?_, ?_, ?_⟩, ?_, ?_, ?_, ?_, ?_⟩
    · dsimp only
      intro p hp
      rcases List.mem_append.mp hp with hp | hp
      · exact Nat.lt_succ_of_lt (hrem1 p hp)
      · simp only [List.mem_singleton] at hp
        simp [hp]
    · dsimp only
      intro p hp
      rcases List.mem_append.mp hp with hp | hp
      · exact Nat.lt_succ_of_lt (hlink1 p hp)
      · simp only [List.mem_singleton] at hp
        simp [hp]
    · dsimp only
      rw [List.map_append]
      simp only [List.map_cons, List.map_nil]
      rw [List.nodup_append]
      refine ⟨?_, List.nodup_singleton _, ?_⟩
      · rw [hfrem]
        exact hinv.wf.rem_nodup
      · intro a ha hb
        simp only [List.mem_singleton] at hb
        obtain ⟨p, hp, he⟩ := List.mem_map.mp ha
        rw [← he] at hb
        have := hrem1 p hp
        rw [hb] at this
        exact absurd this (lt_irrefl _)
    · dsimp only
      rw [hfir, hfni]
      exact hinv.wf.issue_link_lt
    · dsimp only
      exact Nat.le_succ_of_le hNle
    · intro b f i j h1 h2
      dsimp only at h1 h2
      rw [open_rem_for_append hrem1 hlink1] at h1 h2
      rcases h1 with h1 | ⟨hi, hbb, hff⟩
      · rcases h2 with h2 | ⟨hj, hbb, hff⟩
        · exact hinv.one_open b f i j
            ((open_rem_for_congr b f i hfrem hflink).mp h1)
            ((open_rem_for_congr b f j hfrem hflink).mp h2)
        · subst hbb
          subst hff
          exact absurd h1 (find_open_remediation_none heq i)
      · rcases h2 with h2 | ⟨hj, hbb2, hff2⟩
        · subst hbb
          subst hff
          exact absurd h2 (find_open_remediation_none heq j)
        · rw [hi, hj]
    · intro i r hm hi
      dsimp only at hm ⊢
      rcases List.mem_append.mp hm with hm | hm
      · rw [hfrem] at hm
        obtain ⟨e1, e2, e3, e4, e5⟩ := hinv.new_rem i r hm hi
        exact ⟨e1, e2, e3, mem_addSet_of_mem _ e4, groupOfList_add_mono _ _ e5⟩
      · simp only [List.mem_singleton] at hm
        injection hm with hm1 hm2
        subst hm1
        rw [hm2]
        refine ⟨rfl, rfl, rfl, mem_addSet_self _ _, ?_⟩
        dsimp only
        rw [groupOfList_add_self]
        exact List.mem_append_right _ (List.mem_singleton.mpr rfl)
    · intro k l hkl i hi
      dsimp only at hkl ⊢
      rcases add_to_group_mem_cases hkl with hold | ⟨l0, hl0, hleq, hk⟩ | ⟨hleq, hk⟩
      · obtain ⟨r, hr, hle, hb2, hd2⟩ := hinv.group_mem k l hold i hi
        refine ⟨r, ?_, hle, hb2, hd2⟩
        apply List.mem_append_left
        rw [hfrem]
        exact hr
      · rw [hleq] at hi
        rcases List.mem_append.mp hi with hi | hi
        · obtain ⟨r, hr, hle, hb2, hd2⟩ := hinv.group_mem k l0 hl0 i hi
          refine ⟨r, ?_, hle, hb2, hd2⟩
          apply List.mem_append_left
          rw [hfrem]
          exact hr
        · simp only [List.mem_singleton] at hi
          refine ⟨⟨benchmark_id, scan_id, none, "open",
            calculate_due_date cvss analysis_date⟩, ?_, ?_, ?_, ?_⟩
          · apply List.mem_append_right
            rw [hi]
            exact List.mem_singleton.mpr rfl
          · rw [hi]
            exact hNle
          · rw [hk]
          · rw [hk]
      · rw [hleq] at hi
        simp only [List.mem_singleton] at hi
        refine ⟨⟨benchmark_id, scan_id, none, "open",
          calculate_due_date cvss analysis_date⟩, ?_, ?_, ?_, ?_⟩
        · apply List.mem_append_right
          rw [hi]
          exact List.mem_singleton.mpr rfl
        · rw [hi]
          exact hNle
        · rw [hk]
        · rw [hk]
    · dsimp only
      exact add_to_group_keys_nodup _ _ hinv.group_keys_nodup

theorem foldl_process_failure_inv {oldN scan_id ad : Nat} {cvss : Cvss} {b : Nat} :
    ∀ (fs : List String) (st : LoopState), LoopInv oldN scan_id st →
      LoopInv oldN scan_id (fs.foldl (process_failure ad cvss scan_id b) st)
  | [], _, h => h
  | f :: fs, st, h =>
      foldl_process_failure_inv fs (process_failure ad cvss scan_id b st f)
        (process_failure_inv f h)

theorem loopinv_set_db {oldN scan_id : Nat} {st : LoopState} {db2 : DB}
    (hrem : db2.remediations = st.db.remediations)
    (hlink : db2.remediation_findings = st.db.remediation_findings)
    (hnext : db2.next_remediation_id = st.db.next_remediation_id)
    (hir : db2.issue_remediations = st.db.issue_remediations)
    (hni : db2.next_issue_id = st.db.next_issue_id)
    (hinv : LoopInv oldN scan_id st) :
    LoopInv oldN scan_id { st with db := db2 } := by
  refine ⟨⟨?_, ?_, ?_, ?_⟩, ?_, ?_, ?_, ?_, ?_⟩ <;> dsimp only
  · rw [hrem, hnext]
    exact hinv.wf.rem_lt
  · rw [hlink, hnext]
    exact hinv.wf.link_lt
  · rw [hrem]
    exact hinv.wf.rem_nodup
  · rw [hir, hni]
    exact hinv.wf.issue_link_lt
  · rw [hnext]
    exact hinv.old_le
  · intro b f i j h1 h2
    exact hinv.one_open b f i j ((open_rem_for_congr b f i hrem hlink).mp h1)
      ((open_rem_for_congr b f j hrem hlink).mp h2)
  · intro i r hm hi
    rw [hrem] at hm
    exact hinv.new_rem i r hm hi
  · intro k l hkl i hi
    obtain ⟨r, hr, hle, h1, h2⟩ := hinv.group_mem k l hkl i hi
    refine ⟨r, ?_, hle, h1, h2⟩
    rw [hrem]
    exact hr
  · exact hinv.group_keys_nodup

theorem process_row_inv {oldN scan_id ad : Nat} {st st2 : LoopState} {row : Row}
    (h : process_row ad scan_id st row = .ok st2)
    (hinv : LoopInv oldN scan_id st) : LoopInv oldN scan_id st2 := by
  unfold process_row at h
  cases hcv : cvss_db_value row.cvss with
  | error e =>
      rw [hcv] at h
      exact absurd h (by simp [Bind.bind, Except.bind])
  | ok cv =>
      rw [hcv] at h
      simp only [Bind.bind, Except.bind, Except.ok.injEq] at h
      rw [← h]
      apply foldl_process_failure_inv
      obtain ⟨hrem, hlink, hnext, -, hir, hni⟩ := get_or_create_benchmark_frame st.db
        ⟨row.benchmark, row.id, row.level, cv, row.title, row.description,
          row.rationale, row.refs⟩
      exact loopinv_set_db hrem hlink hnext hir hni hinv

theorem foldlM_process_row_inv {oldN scan_id ad : Nat} :
    ∀ (rows : List Row) (st st2 : LoopState),
      rows.foldlM (process_row ad scan_id) st = .ok st2 →
      LoopInv oldN scan_id st → LoopInv oldN scan_id st2 := by
  intro rows
  induction rows with
  | nil =>
      intro st st2 h hinv
      simp only [List.foldlM_nil, pure, Except.pure, Except.ok.injEq] at h
      rw [← h]
      exact hinv
  | cons r t ih =>
      intro st st2 h hinv
      rw [List.foldlM_cons] at h
      cases hr : process_row ad scan_id st r with
      | error e =>
          rw [hr] at h
          simp [Bind.bind, Except.bind] at h
      | ok st1 =>
          rw [hr] at h
          simp only [Bind.bind, Except.bind] at h
          exact ih st1 st2 h (process_row_inv hr hinv)

theorem loopinv_init (db : DB) (d : Nat) (hwf : DBWF db) (hone : at_most_one_open db) :
    LoopInv db.next_remediation_id (get_or_create_scan db d).2
      ⟨(get_or_create_scan db d).1, [], [], 0, 0⟩ := by
  obtain ⟨hrem, hlink, hnext, -, hir, hni⟩ := get_or_create_scan_frame db d
  refine ⟨⟨?_, ?_, ?_, ?_⟩, ?_, ?_, ?_, ?_, ?_⟩ <;> dsimp only
  · rw [hrem, hnext]
    exact hwf.rem_lt
  · rw [hlink, hnext]
    exact hwf.link_lt
  · rw [hrem]
    exact hwf.rem_nodup
  · rw [hir, hni]
    exact hwf.issue_link_lt
  · rw [hnext]
  · intro b f i j h1 h2
    exact hone b f i j ((open_rem_for_congr b f i hrem hlink).mp h1)
      ((open_rem_for_congr b f j hrem hlink).mp h2)
  · intro i r hm hi
    rw [hrem] at hm
    exact absurd (hwf.rem_lt _ hm) (not_lt.mpr hi)
  · intro k l hkl
    cases hkl
  · exact List.nodup_nil

theorem run_rows_inv {db : DB} {rows : List Row} {d : Nat} {st : LoopState}
    (h : run_rows db rows d = .ok st) (hwf : DBWF db) (hone : at_most_one_open db) :
    LoopInv db.next_remediation_id (get_or_create_scan db d).2 st := by
  unfold run_rows at h
  exact foldlM_process_row_inv rows _ st h (loopinv_init db d hwf hone)

theorem upload_ok_run_rows {db : DB} {rows : List Row} {d : Nat} {db2 : DB}
    {res : ScanResult}
    (h : process_upload_dataframe db rows d = .ok (db2, res)) :
    ∃ st, run_rows db rows d = .ok st ∧
      db2 = upload_closure_step (get_or_create_scan db d).2 d st := by
  unfold process_upload_dataframe at h
  cases hr : run_rows db rows d with
  | error e =>
      rw [hr] at h
      simp [Except.map] at h
  | ok st =>
      rw [hr] at h
      simp only [Except.map, upload_finish, Except.ok.injEq, Prod.mk.injEq] at h
      exact ⟨st, rfl, h.1.symm⟩

theorem process_failure_issue_frame (ad : Nat) (cvss : Cvss) (scan_id b : Nat)
    (st : LoopState) (f : String) :
    (process_failure ad cvss scan_id b st f).db.issues = st.db.issues ∧
    (process_failure ad cvss scan_id b st f).db.issue_remediations
        = st.db.issue_remediations ∧
    (process_failure ad cvss scan_id b st f).db.next_issue_id = st.db.next_issue_id := by
  obtain ⟨-, -, -, hfi, hfir, hfni⟩ := insert_finding_frame st.db b f
  unfold process_failure
  simp only []
  split
  · exact ⟨hfi, hfir, hfni⟩
  · unfold link_finding_to_remediation create_remediation
    dsimp only
    split <;> exact ⟨hfi, hfir, hfni⟩

theorem foldl_process_failure_issue_frame {ad : Nat} {cvss : Cvss} {scan_id b : Nat} :
    ∀ (fs : List String) (st : LoopState),
      (fs.foldl (process_failure ad cvss scan_id b) st).db.issues = st.db.issues ∧
      (fs.foldl (process_failure ad cvss scan_id b) st).db.issue_remediations
          = st.db.issue_remediations ∧
      (fs.foldl (process_failure ad cvss scan_id b) st).db.next_issue_id
          = st.db.next_issue_id := by
  intro fs
  induction fs with
  | nil => exact fun st => ⟨rfl, rfl, rfl⟩
  | cons f t ih =>
      intro st
      rw [List.foldl_cons]
      obtain ⟨h1, h2, h3⟩ := ih (process_failure ad cvss scan_id b st f)
      obtain ⟨g1, g2, g3⟩ := process_failure_issue_frame ad cvss scan_id b st f
      exact ⟨h1.trans g1, h2.trans g2, h3.trans g3⟩

theorem process_row_issue_frame {ad scan_id : Nat} {st st2 : LoopState} {row : Row}
    (h : process_row ad scan_id st row = .ok st2) :
    st2.db.issues = st.db.issues ∧
    st2.db.issue_remediations = st.db.issue_remediations ∧
    st2.db.next_issue_id = st.db.next_issue_id := by
  unfold process_row at h
  cases hcv : cvss_db_value row.cvss with
  | error e =>
      rw [hcv] at h
      exact absurd h (by simp [Bind.bind, Except.bind])
  | ok cv =>
      rw [hcv] at h
      simp only [Bind.bind, Except.bind, Except.ok.injEq] at h
      rw [← h]
      obtain ⟨h1, h2, h3⟩ := foldl_process_failure_issue_frame (split_failures row.failures)
        { st with db := (get_or_create_benchmark st.db
          ⟨row.benchmark, row.id, row.level, cv, row.title, row.description,
            row.rationale, row.refs⟩).1 }
      obtain ⟨-, -, -, g1, g2, g3⟩ := get_or_create_benchmark_frame st.db
        ⟨row.benchmark, row.id, row.level, cv, row.title, row.description,
          row.rationale, row.refs⟩
      exact ⟨h1.trans g1, h2.trans g2, h3.trans g3⟩

theorem run_rows_issue_frame {db : DB} {d : Nat} :
    ∀ (rows : List Row) (st0 st : LoopState),
      rows.foldlM (process_row d (get_or_create_scan db d).2) st0 = .ok st →
      st.db.issues = st0.db.issues ∧
      st.db.issue_remediations = st0.db.issue_remediations ∧
      st.db.next_issue_id = st0.db.next_issue_id := by
  intro rows
  induction rows with
  | nil =>
      intro st0 st h
      simp only [List.foldlM_nil, pure, Except.pure, Except.ok.injEq] at h
      rw [← h]
      exact ⟨rfl, rfl, rfl⟩
  | cons r t ih =>
      intro st0 st h
      rw [List.foldlM_cons] at h
      cases hr : process_row d (get_or_create_scan db d).2 st0 r with
      | error e =>
          rw [hr] at h
          simp [Bind.bind, Except.bind] at h
      | ok st1 =>
          rw [hr] at h
          simp only [Bind.bind, Except.bind] at h
          obtain ⟨h1, h2, h3⟩ := ih st1 st h
          obtain ⟨g1, g2, g3⟩ := process_row_issue_frame hr
          exact ⟨h1.trans g1, h2.trans g2, h3.trans g3⟩

theorem closure_frame (db : DB) (scan_id : Nat) (active : List Nat) :
    (mark_remediations_resolved_if_not_in_list db scan_id active).remediation_findings
        = db.remediation_findings ∧
    (mark_remediations_resolved_if_not_in_list db scan_id active).issues = db.issues ∧
    (mark_remediations_resolved_if_not_in_list db scan_id active).issue_remediations
        = db.issue_remediations ∧
    (mark_remediations_resolved_if_not_in_list db scan_id active).next_remediation_id
        = db.next_remediation_id ∧
    (mark_remediations_resolved_if_not_in_list db scan_id active).next_issue_id
        = db.next_issue_id := by
  unfold mark_remediations_resolved_if_not_in_list
  split <;> exact ⟨rfl, rfl, rfl, rfl, rfl⟩

theorem closure_mem_src {db : DB} {scan_id : Nat} {active : List Nat} {i : Nat}
    {r : Remediation}
    (h : (i, r) ∈ (mark_remediations_resolved_if_not_in_list db scan_id active).remediations) :
    ∃ r0, (i, r0) ∈ db.remediations ∧ r0.benchmark_id = r.benchmark_id ∧
      r0.due_date = r.due_date ∧ r0.first_seen_scan = r.first_seen_scan ∧
      (r = r0 ∨ (r0.state = "open" ∧ r.state = "resolved")) := by
  unfold mark_remediations_resolved_if_not_in_list at h
  split at h <;> dsimp only at h
  · obtain ⟨⟨pi, pr⟩, hp, he⟩ := List.mem_map.mp h
    dsimp only at he
    split at he
    · rename_i hcond
      injection he with he1 he2
      rw [he1] at hp
      refine ⟨pr, hp, ?_, ?_, ?_, Or.inr ⟨hcond, ?_⟩⟩ <;> rw [← he2]
    · injection he with he1 he2
      rw [he1] at hp
      rw [he2] at hp
      exact ⟨r, hp, rfl, rfl, rfl, Or.inl rfl⟩
  · obtain ⟨⟨pi, pr⟩, hp, he⟩ := List.mem_map.mp h
    dsimp only at he
    split at he
    · rename_i hcond
      injection he with he1 he2
      rw [he1] at hp
      refine ⟨pr, hp, ?_, ?_, ?_, Or.inr ⟨hcond.1, ?_⟩⟩ <;> rw [← he2]
    · injection he with he1 he2
      rw [he1] at hp
      rw [he2] at hp
      exact ⟨r, hp, rfl, rfl, rfl, Or.inl rfl⟩

theorem closure_open_src {db : DB} {scan_id : Nat} {active : List Nat} {i : Nat}
    {r : Remediation}
    (h : (i, r) ∈ (mark_remediations_resolved_if_not_in_list db scan_id active).remediations)
    (hopen : r.state = "open") : (i, r) ∈ db.remediations := by
  obtain ⟨r0, hr0, -, -, -, hc⟩ := closure_mem_src h
  rcases hc with hc | hc
  · rw [hc]
    exact hr0
  · rw [hc.2] at hopen
    exact absurd hopen (by decide)

theorem closure_preserves_active {db : DB} {scan_id : Nat} {active : List Nat} {i : Nat}
    {r : Remediation}
    (hmem : (i, r) ∈ db.remediations) (hact : i ∈ active) :
    (i, r) ∈ (mark_remediations_resolved_if_not_in_list db scan_id active).remediations := by
  unfold mark_remediations_resolved_if_not_in_list
  rw [if_neg]
  · dsimp only
    have h2 : (fun p : Nat × Remediation =>
        if p.2.state = "open" ∧ p.1 ∉ active then
          (p.1, { p.2 with state := "resolved", resolved_in_scan := some scan_id })
        else p) (i, r) = (i, r) := by
      dsimp only
      rw [if_neg]
      intro hcon
      exact hcon.2 hact
    rw [← h2]
    exact List.mem_map_of_mem _ hmem
  · intro he
    rw [List.isEmpty_iff] at he
    rw [he] at hact
    cases hact

theorem find?_index {α : Type} (p : α → Bool) :
    ∀ (l : List α) (a : α), l.find? p = some a → ∃ j : Fin l.length, l.get j = a := by
  intro l
  induction l with
  | nil => intro a h; cases h
  | cons x t ih =>
      intro a h
      by_cases hx : p x
      · rw [List.find?_cons_of_pos _ hx] at h
        injection h with h1
        exact ⟨⟨0, Nat.succ_pos _⟩, h1⟩
      · rw [List.find?_cons_of_neg _ hx] at h
        obtain ⟨j, hj⟩ := ih a h
        exact ⟨⟨j.1 + 1, Nat.succ_lt_succ j.isLt⟩, hj⟩

theorem issue_fold_frame (ad : Nat) :
    ∀ (gs : List ((Nat × Nat) × List Nat)) (db : DB),
      (gs.foldl (fun d p => create_issue_for_remediations d p.2 p.1.1 ad p.1.2)
          db).remediations = db.remediations ∧
      (gs.foldl (fun d p => create_issue_for_remediations d p.2 p.1.1 ad p.1.2)
          db).remediation_findings = db.remediation_findings ∧
      (gs.foldl (fun d p => create_issue_for_remediations d p.2 p.1.1 ad p.1.2)
          db).next_remediation_id = db.next_remediation_id ∧
      (gs.foldl (fun d p => create_issue_for_remediations d p.2 p.1.1 ad p.1.2)
          db).issue_remediations
        = db.issue_remediations ++ issue_links_from db.next_issue_id gs := by
  intro gs
  induction gs with
  | nil =>
      intro db
      refine ⟨rfl, rfl, rfl, ?_⟩
      simp [issue_links_from]
  | cons g t ih =>
      intro db
      rw [List.foldl_cons]
      obtain ⟨h1, h2, h3, h4⟩ := ih (create_issue_for_remediations db g.2 g.1.1 ad g.1.2)
      refine ⟨h1, h2, h3, ?_⟩
      rw [h4]
      show db.issue_remediations ++ List.map _ g.2 ++ _ = _
      rw [List.append_assoc]
      rfl

theorem mem_issue_links_from (iss rid : Nat) :
    ∀ (gs : List ((Nat × Nat) × List Nat)) (n : Nat),
      (iss, rid) ∈ issue_links_from n gs ↔
        ∃ j, ∃ hj : j < gs.length, iss = n + j ∧ rid ∈ (gs.get ⟨j, hj⟩).2 := by
  intro gs
  induction gs with
  | nil =>
      intro n
      constructor
      · intro h
        cases h
      · rintro ⟨j, hj, -, -⟩
        exact absurd hj (by simp)
  | cons g t ih =>
      intro n
      unfold issue_links_from
      rw [List.mem_append]
      constructor
      · rintro (h | h)
        · obtain ⟨r, hr, he⟩ := List.mem_map.mp h
          injection he with he1 he2
          refine ⟨0, Nat.succ_pos _, by omega, ?_⟩
          show rid ∈ g.2
          rw [he2] at hr
          exact hr
        · obtain ⟨j, hj, h1, h2⟩ := (ih (n + 1)).mp h
          refine ⟨j + 1, Nat.succ_lt_succ hj, by omega, ?_⟩
          show rid ∈ (t.get ⟨j, hj⟩).2
          exact h2
      · rintro ⟨j, hj, h1, h2⟩
        cases j with
        | zero =>
            left
            refine List.mem_map.mpr ⟨rid, ?_, ?_⟩
            · exact h2
            · have : iss = n := by omega
              rw [this]
        | succ j2 =>
            right
            refine (ih (n + 1)).mpr ⟨j2, Nat.lt_of_succ_lt_succ hj, by omega, ?_⟩
            exact h2

theorem process_row_error {ad scan_id : Nat} {st : LoopState} {row : Row} {msg : String}
    (h : process_row ad scan_id st row = .error msg) :
    ∃ s, row.cvss = Cvss.malformed s ∧
      msg = "could not convert string to float: " ++ s := by
  unfold process_row at h
  cases hcv : row.cvss with
  | num q =>
      rw [hcv] at h
      simp [cvss_db_value, Bind.bind, Except.bind] at h
  | blank =>
      rw [hcv] at h
      simp [cvss_db_value, Bind.bind, Except.bind] at h
  | malformed s =>
      rw [hcv] at h
      simp only [cvss_db_value, Bind.bind, Except.bind, Except.error.injEq] at h
      exact ⟨s, rfl, h.symm⟩

theorem foldlM_error_source {ad scan_id : Nat} {msg : String} :
    ∀ (rows : List Row) (st : LoopState),
      rows.foldlM (process_row ad scan_id) st = .error msg →
      ∃ row ∈ rows, ∃ s, row.cvss = Cvss.malformed s ∧
        msg = "could not convert string to float: " ++ s := by
  intro rows
  induction rows with
  | nil =>
      intro st h
      simp [List.foldlM_nil, pure, Except.pure] at h
  | cons r t ih =>
      intro st h
      rw [List.foldlM_cons] at h
      cases hr : process_row ad scan_id st r with
      | error e =>
          rw [hr] at h
          simp only [Bind.bind, Except.bind] at h
          injection h with he
          obtain ⟨s, h1, h2⟩ := process_row_error hr
          refine ⟨r, List.mem_cons_self r t, s, h1, ?_⟩
          rw [← he]
          exact h2
      | ok st1 =>
          rw [hr] at h
          simp only [Bind.bind, Except.bind] at h
          obtain ⟨row, hrow, hs⟩ := ih st1 h
          exact ⟨row, List.mem_cons_of_mem r hrow, hs⟩

theorem nodup_keys_get_inj {α β : Type} :
    ∀ (l : List (α × β)) (j1 j2 : Nat) (h1 : j1 < l.length) (h2 : j2 < l.length),
      (l.map Prod.fst).Nodup → (l.get ⟨j1, h1⟩).1 = (l.get ⟨j2, h2⟩).1 → j1 = j2 := by
  intro l
  induction l with
  | nil =>
      intro j1 j2 h1
      simp at h1
  | cons x t ih =>
      intro j1 j2 h1 h2 hnd he
      rw [List.map_cons, List.nodup_cons] at hnd
      cases j1 with
      | zero =>
          cases j2 with
          | zero => rfl
          | succ b =>
              exfalso
              apply hnd.1
              have hb : b < t.length := Nat.lt_of_succ_lt_succ h2
              have hx0 : ((x :: t).get ⟨0, h1⟩).1 = x.1 := rfl
              have hsb : ((x :: t).get ⟨b + 1, h2⟩).1 = (t.get ⟨b, hb⟩).1 := rfl
              rw [hx0, hsb] at he
              rw [he]
              exact List.mem_map_of_mem Prod.fst (List.get_mem t b hb)
      | succ a =>
          cases j2 with
          | zero =>
              exfalso
              apply hnd.1
              have ha : a < t.length := Nat.lt_of_succ_lt_succ h1
              have hx0 : ((x :: t).get ⟨0, h2⟩).1 = x.1 := rfl
              have hsa : ((x :: t).get ⟨a + 1, h1⟩).1 = (t.get ⟨a, ha⟩).1 := rfl
              rw [hx0, hsa] at he
              rw [← he]
              exact List.mem_map_of_mem Prod.fst (List.get_mem t a ha)
          | succ b =>
              have ha : a < t.length := Nat.lt_of_succ_lt_succ h1
              have hb : b < t.length := Nat.lt_of_succ_lt_succ h2
              have hsa : ((x :: t).get ⟨a + 1, h1⟩).1 = (t.get ⟨a, ha⟩).1 := rfl
              have hsb : ((x :: t).get ⟨b + 1, h2⟩).1 = (t.get ⟨b, hb⟩).1 := rfl
              rw [hsa, hsb] at he
              have := ih a b ha hb hnd.2 he
              omega

/-! Claim theorems with their witnesses and counterexamples. -/

/-- C3: at most one open remediation exists per (benchmark, finding)
pair, and every scan ingestion preserves this invariant: re-ingesting a
failing (benchmark, rule, failure) in a later scan, or a duplicate
failure line within one scan, finds the existing open remediation
through the open-remediation probe and never creates a second one for
the pair. -/
theorem scan_preserves_at_most_one_open_remediation (db : DB) (rows : List Row) (d : Nat)
    (db2 : DB) (res : ScanResult) (hwf : DBWF db) (hone : at_most_one_open db)
    (h : process_upload_dataframe db rows d = .ok (db2, res)) :
    at_most_one_open db2 := by
  obtain ⟨st, hrun, hdb2⟩ := upload_ok_run_rows h
  have hinv := run_rows_inv hrun hwf hone
  obtain ⟨hf1, hf2, hf3, hf4⟩ := issue_fold_frame d st.remediations_needing_issues st.db
  intro b f i j h1 h2
  rw [hdb2] at h1 h2
  unfold upload_closure_step at h1 h2
  have tr : ∀ ii, open_rem_for (mark_remediations_resolved_if_not_in_list
      (issue_creation_step d st) (get_or_create_scan db d).2 st.active_remediation_ids)
      b f ii → open_rem_for st.db b f ii := by
    rintro ii ⟨r, hr, hb, hs, hl⟩
    have hsrc := closure_open_src hr hs
    obtain ⟨hc1, -, -, -, -⟩ := closure_frame (issue_creation_step d st)
      (get_or_create_scan db d).2 st.active_remediation_ids
    rw [hc1] at hl
    unfold issue_creation_step at hsrc hl
    rw [hf1] at hsrc
    rw [hf2] at hl
    exact ⟨r, hsrc, hb, hs, hl⟩
  exact hinv.one_open b f i j (tr i h1) (tr j h2)

/-- C3 witness: the invariant after ingesting rowA into the fresh
store, by the theorem applied to that run. -/
theorem scan_preserves_at_most_one_open_remediation_witness :
    at_most_one_open db_after_scan1 :=
  scan_preserves_at_most_one_open_remediation emptyDB [rowA] 100 db_after_scan1
    ⟨1, 0, 0⟩ dbwf_empty one_open_empty rfl

/-- C9: when the open-remediation probe finds an open remediation for
the (benchmark, finding) pair of a re-observed failure, the loop body
leaves the remediations table, the link table and the next remediation
id entirely unchanged and counts no new remediation, for every CVSS
value and analysis date the later scan reports. -/
theorem reobserved_finding_leaves_remediation_unchanged (ad : Nat) (cvss : Cvss)
    (scan_id benchmark_id : Nat) (st : LoopState) (failure : String)
    (h : (find_open_remediation (insert_finding st.db benchmark_id failure).1 benchmark_id
      (insert_finding st.db benchmark_id failure).2).isSome = true) :
    (process_failure ad cvss scan_id benchmark_id st failure).db.remediations
        = st.db.remediations ∧
    (process_failure ad cvss scan_id benchmark_id st failure).db.remediation_findings
        = st.db.remediation_findings ∧
    (process_failure ad cvss scan_id benchmark_id st failure).db.next_remediation_id
        = st.db.next_remediation_id ∧
    (process_failure ad cvss scan_id benchmark_id st failure).new_count = st.new_count := by
  obtain ⟨hfrem, hflink, hfnext, -, -, -⟩ := insert_finding_frame st.db benchmark_id failure
  obtain ⟨rid, hrid⟩ := Option.isSome_iff_exists.mp h
  unfold process_failure
  simp only []
  rw [hrid]
  exact ⟨hfrem, hflink, hfnext, rfl⟩

/-- C9 witness: re-observing host-1 of benchmark 1 in a later scan with
a different CVSS and date leaves the remediation table of the scan-1
store untouched. -/
theorem reobserved_finding_leaves_remediation_unchanged_witness :
    (process_failure 300 (Cvss.num 2) 5 1 ⟨db_after_scan1, [], [], 0, 0⟩
        "host-1").db.remediations = db_after_scan1.remediations ∧
    (process_failure 300 (Cvss.num 2) 5 1 ⟨db_after_scan1, [], [], 0, 0⟩
        "host-1").new_count = 0 := by
  obtain ⟨h1, -, -, h4⟩ := reobserved_finding_leaves_remediation_unchanged 300
    (Cvss.num 2) 5 1 ⟨db_after_scan1, [], [], 0, 0⟩ "host-1" (by decide)
  exact ⟨h1, h4⟩

/-- C10 amended: every remediation row first created by the current run
(id at least the pre-scan next remediation id) is registered in the
active set at creation, so the closure step never resolves it: it is
still open with a NULL resolved_in_scan and carries the current scan as
first seen when the scan commits. -/
theorem remediations_created_in_run_remain_open (db : DB) (rows : List Row) (d : Nat)
    (db2 : DB) (res : ScanResult) (hwf : DBWF db) (hone : at_most_one_open db)
    (h : process_upload_dataframe db rows d = .ok (db2, res)) :
    ∀ i r, (i, r) ∈ db2.remediations → db.next_remediation_id ≤ i →
      r.state = "open" ∧ r.resolved_in_scan = none ∧
      r.first_seen_scan = (get_or_create_scan db d).2 := by
  obtain ⟨st, hrun, hdb2⟩ := upload_ok_run_rows h
  have hinv := run_rows_inv hrun hwf hone
  obtain ⟨hf1, hf2, hf3, hf4⟩ := issue_fold_frame d st.remediations_needing_issues st.db
  intro i r hm hi
  rw [hdb2] at hm
  unfold upload_closure_step at hm
  unfold mark_remediations_resolved_if_not_in_list at hm
  by_cases hE : st.active_remediation_ids.isEmpty
  · rw [if_pos hE] at hm
    dsimp only at hm
    obtain ⟨⟨pi, pr⟩, hp, he⟩ := List.mem_map.mp hm
    unfold issue_creation_step at hp
    rw [hf1] at hp
    have hpi : pi = i := by
      dsimp only at he
      split at he <;> exact congrArg Prod.fst he
    rw [hpi] at hp
    have hnew := hinv.new_rem i pr hp hi
    rw [List.isEmpty_iff] at hE
    rw [hE] at hnew
    exact absurd hnew.2.2.2.1 (List.not_mem_nil i)
  · rw [if_neg hE] at hm
    dsimp only at hm
    obtain ⟨⟨pi, pr⟩, hp, he⟩ := List.mem_map.mp hm
    unfold issue_creation_step at hp
    rw [hf1] at hp
    have hpi : pi = i := by
      dsimp only at he
      split at he <;> exact congrArg Prod.fst he
    rw [hpi] at hp
    have hnew := hinv.new_rem i pr hp hi
    dsimp only at he
    rw [if_neg] at he
    · injection he with x y
      rw [← y]
      exact ⟨hnew.2.2.1, hnew.2.1, hnew.1⟩
    · intro hcon
      apply hcon.2
      rw [hpi]
      exact hnew.2.2.2.1

/-- C10 amended witness: the remediation created by ingesting rowA is
open with NULL resolved_in_scan and first seen in the created scan, by
the theorem applied to that run. -/
theorem remediations_created_in_run_remain_open_witness :
    (⟨1, 1, none, "open", 115⟩ : Remediation).state = "open" ∧
    (⟨1, 1, none, "open", 115⟩ : Remediation).resolved_in_scan = none ∧
    (⟨1, 1, none, "open", 115⟩ : Remediation).first_seen_scan
        = (get_or_create_scan emptyDB 100).2 :=
  remediations_created_in_run_remain_open emptyDB [rowA] 100 db_after_scan1 ⟨1, 0, 0⟩
    dbwf_empty one_open_empty rfl 1 ⟨1, 1, none, "open", 115⟩ (by decide) (by decide)

/-- C2 amended: every open remediation whose id is not in the active
set is transitioned to resolved by the closure step; resolved_in_scan
is stamped with the current scan only when the active set is nonempty,
and is left unchanged (NULL) by the empty-active-set branch. -/
theorem closure_step_resolves_and_stamps_only_when_active_nonempty
    (db : DB) (scan_id : Nat) (active : List Nat) (i : Nat) (r : Remediation)
    (hmem : (i, r) ∈ db.remediations) (hopen : r.state = "open") (hact : i ∉ active) :
    (i, { r with
        state := "resolved"
        resolved_in_scan := if active.isEmpty then r.resolved_in_scan else some scan_id })
      ∈ (mark_remediations_resolved_if_not_in_list db scan_id active).remediations := by
  unfold mark_remediations_resolved_if_not_in_list
  by_cases hE : active.isEmpty
  · rw [if_pos hE]
    dsimp only
    have h2 : (fun p : Nat × Remediation => if p.2.state = "open" then
        (p.1, { p.2 with state := "resolved" }) else p) (i, r)
        = (i, { r with
            state := "resolved"
            resolved_in_scan :=
              if active.isEmpty then r.resolved_in_scan else some scan_id }) := by
      dsimp only
      rw [if_pos hopen, if_pos hE]
    rw [← h2]
    exact List.mem_map_of_mem _ hmem
  · rw [if_neg hE]
    dsimp only
    have h2 : (fun p : Nat × Remediation => if p.2.state = "open" ∧ p.1 ∉ active then
        (p.1, { p.2 with state := "resolved", resolved_in_scan := some scan_id }) else p)
        (i, r)
        = (i, { r with
            state := "resolved"
            resolved_in_scan :=
              if active.isEmpty then r.resolved_in_scan else some scan_id }) := by
      dsimp only
      rw [if_pos ⟨hopen, hact⟩, if_neg hE]
    rw [← h2]
    exact List.mem_map_of_mem _ hmem

/-- C2 amended witness: closing the scan-1 store against a nonempty
active set that does not contain remediation 1 resolves it and stamps
resolved_in_scan with the current scan id 2. -/
theorem closure_step_stamps_witness :
    (1, (⟨1, 1, some 2, "resolved", 115⟩ : Remediation))
      ∈ (mark_remediations_resolved_if_not_in_list db_after_scan1 2 [5]).remediations := by
  have := closure_step_resolves_and_stamps_only_when_active_nonempty db_after_scan1 2 [5]
    1 ⟨1, 1, none, "open", 115⟩ (by decide) rfl (by decide)
  simpa using this

/-- C4 amended: a failure raised while processing the rows (the only
failing step of the ingestion, and one that precedes every commit call
of the helpers) leaves the committed store exactly as before the scan,
and every such failure is a ValueError from an unparseable CVSS cell;
effects already committed by the mid-scan commits of the helpers are
not rolled back (see the counterexample). -/
theorem failed_upload_commits_nothing (db : DB) (rows : List Row) (d : Nat) (msg : String)
    (h : process_upload_dataframe db rows d = .error msg) :
    upload_committed_state db rows d = db ∧
    ∃ row ∈ rows, ∃ s, row.cvss = Cvss.malformed s ∧
      msg = "could not convert string to float: " ++ s := by
  constructor
  · unfold upload_committed_state
    rw [h]
  · unfold process_upload_dataframe at h
    cases hr : run_rows db rows d with
    | ok st =>
        rw [hr] at h
        simp [Except.map] at h
    | error e =>
        rw [hr] at h
        simp only [Except.map] at h
        injection h with he
        unfold run_rows at hr
        obtain ⟨row, hrow, hs⟩ := foldlM_error_source rows _ hr
        rw [← he]
        exact ⟨row, hrow, hs⟩

/-- C4 amended witness: the failing ingestion of rowBad2 leaves the
committed store equal to the fresh store, by the theorem applied to
that run. -/
theorem failed_upload_commits_nothing_witness :
    upload_committed_state emptyDB [rowBad2] 100 = emptyDB ∧
    ∃ row ∈ [rowBad2], ∃ s, row.cvss = Cvss.malformed s ∧
      ("could not convert string to float: xyz" : String)
        = "could not convert string to float: " ++ s :=
  failed_upload_commits_nothing emptyDB [rowBad2] 100
    "could not convert string to float: xyz" rfl

/-- C8 amended: on a duplicate date, get_or_create_scan silently leaves
the store unchanged and returns the existing id instead of failing,
while the multi-date batch path checks existence first and skips every
already-processed date, so re-running a batch whose dates all exist
returns zero counts and changes nothing in the store. -/
theorem duplicate_scan_date_handling (db : DB) (d : Nat) (rows : List DatedRow)
    (hd : check_if_scan_exists db d = true)
    (hall : ∀ r ∈ rows, check_if_scan_exists db r.date = true) :
    (get_or_create_scan db d).1 = db ∧
    process_multiple_scan_upload db rows = .ok (db, ⟨0, 0, 0⟩) := by
  constructor
  · unfold check_if_scan_exists at hd
    obtain ⟨p, hp⟩ := Option.isSome_iff_exists.mp hd
    unfold get_or_create_scan
    rw [hp]
  · unfold process_multiple_scan_upload
    have hdates : ∀ x ∈ ((rows.map (fun r => r.date)).dedup).mergeSort (fun a b => a ≤ b),
        check_if_scan_exists db x = true := by
      intro x hx
      rw [List.mem_mergeSort, List.mem_dedup] at hx
      obtain ⟨r, hr, he⟩ := List.mem_map.mp hx
      rw [← he]
      exact hall r hr
    generalize ((rows.map (fun r => r.date)).dedup).mergeSort (fun a b => a ≤ b)
      = dates at hdates ⊢
    clear hall hd
    induction dates with
    | nil => rfl
    | cons x t ih =>
        rw [List.foldlM_cons]
        have hx := hdates x (List.mem_cons_self x t)
        rw [if_pos hx]
        simp only [Bind.bind, Except.bind]
        exact ih (fun y hy => hdates y (List.mem_cons_of_mem x hy))

/-- C8 amended witness: re-running the batch for the already-processed
date 100 changes nothing in the scan-1 store, by the theorem applied to
that batch. -/
theorem duplicate_scan_date_handling_witness :
    (get_or_create_scan db_after_scan1 100).1 = db_after_scan1 ∧
    process_multiple_scan_upload db_after_scan1 [⟨100, rowOther⟩]
      = .ok (db_after_scan1, ⟨0, 0, 0⟩) :=
  duplicate_scan_date_handling db_after_scan1 100 [⟨100, rowOther⟩] (by decide) (by decide)

/-- C5: within one scan, the newly created remediations (ids at least
the pre-scan next remediation id) are grouped into new issues (ids at
least the pre-scan next issue id) by exact (benchmark id, due date)
equality: a new issue links only new remediations; two new remediations
share a new issue exactly when their benchmark and computed due date
agree, and in that case the linking issue is unique because each new
remediation is linked to exactly one new issue; continuing remediations
are never linked to a newly created issue. -/
theorem new_issues_group_new_remediations_by_benchmark_and_due_date
    (db : DB) (rows : List Row) (d : Nat) (db2 : DB) (res : ScanResult)
    (hwf : DBWF db) (hone : at_most_one_open db)
    (h : process_upload_dataframe db rows d = .ok (db2, res)) :
    (∀ iss rid, (iss, rid) ∈ db2.issue_remediations → db.next_issue_id ≤ iss →
      db.next_remediation_id ≤ rid) ∧
    (∀ i ri j rj, (i, ri) ∈ db2.remediations → (j, rj) ∈ db2.remediations →
      db.next_remediation_id ≤ i → db.next_remediation_id ≤ j →
      ((∃ iss, db.next_issue_id ≤ iss ∧ (iss, i) ∈ db2.issue_remediations ∧
          (iss, j) ∈ db2.issue_remediations)
        ↔ (ri.benchmark_id = rj.benchmark_id ∧ ri.due_date = rj.due_date))) ∧
    (∀ rid iss1 iss2, db.next_issue_id ≤ iss1 → db.next_issue_id ≤ iss2 →
      (iss1, rid) ∈ db2.issue_remediations → (iss2, rid) ∈ db2.issue_remediations →
      iss1 = iss2) := by
  obtain ⟨st, hrun, hdb2⟩ := upload_ok_run_rows h
  have hinv := run_rows_inv hrun hwf hone
  obtain ⟨hf1, hf2, hf3, hf4⟩ := issue_fold_frame d st.remediations_needing_issues st.db
  unfold run_rows at hrun
  obtain ⟨-, hist_ir, hist_ni⟩ := run_rows_issue_frame rows _ st hrun
  obtain ⟨-, -, -, -, hscan_ir, hscan_ni⟩ := get_or_create_scan_frame db d
  have hir0 : st.db.issue_remediations = db.issue_remediations := by
    rw [hist_ir]
    exact hscan_ir
  have hni0 : st.db.next_issue_id = db.next_issue_id := by
    rw [hist_ni]
    exact hscan_ni
  have hlinks : db2.issue_remediations
      = db.issue_remediations
        ++ issue_links_from db.next_issue_id st.remediations_needing_issues := by
    rw [hdb2]
    unfold upload_closure_step
    obtain ⟨-, -, hcir, -, -⟩ := closure_frame (issue_creation_step d st)
      (get_or_create_scan db d).2 st.active_remediation_ids
    rw [hcir]
    unfold issue_creation_step
    rw [hf4, hir0, hni0]
  have hremsrc : ∀ i r, (i, r) ∈ db2.remediations → ∃ r0, (i, r0) ∈ st.db.remediations ∧
      r0.benchmark_id = r.benchmark_id ∧ r0.due_date = r.due_date := by
    intro i r hm
    rw [hdb2] at hm
    unfold upload_closure_step at hm
    obtain ⟨r0, hr0, hb, hd2, -, -⟩ := closure_mem_src hm
    unfold issue_creation_step at hr0
    rw [hf1] at hr0
    exact ⟨r0, hr0, hb, hd2⟩
  have hnew_link : ∀ iss rid, (iss, rid) ∈ db2.issue_remediations →
      db.next_issue_id ≤ iss →
      ∃ jdx, ∃ hj : jdx < st.remediations_needing_issues.length,
        iss = db.next_issue_id + jdx ∧
        rid ∈ (st.remediations_needing_issues.get ⟨jdx, hj⟩).2 := by
    intro iss rid hm hle
    rw [hlinks] at hm
    rcases List.mem_append.mp hm with hm | hm
    · exact absurd (hwf.issue_link_lt _ hm) (not_lt.mpr hle)
    · exact (mem_issue_links_from iss rid _ _).mp hm
  have hgm : ∀ jdx (hj : jdx < st.remediations_needing_issues.length) rid,
      rid ∈ (st.remediations_needing_issues.get ⟨jdx, hj⟩).2 →
      ∃ r, (rid, r) ∈ st.db.remediations ∧ db.next_remediation_id ≤ rid ∧
        r.benchmark_id = (st.remediations_needing_issues.get ⟨jdx, hj⟩).1.1 ∧
        r.due_date = (st.remediations_needing_issues.get ⟨jdx, hj⟩).1.2 := by
    intro jdx hj rid hr
    exact hinv.group_mem _ _ (List.get_mem st.remediations_needing_issues jdx hj) rid hr
  refine ⟨?_, ?_, ?_⟩
  · intro iss rid hm hle
    obtain ⟨jdx, hj, -, hr⟩ := hnew_link iss rid hm hle
    obtain ⟨r, -, hge, -, -⟩ := hgm jdx hj rid hr
    exact hge
  · intro i ri j rj hmi hmj hgei hgej
    constructor
    · rintro ⟨iss, hle, hli, hlj⟩
      obtain ⟨j1, hj1, he1, hr1⟩ := hnew_link iss i hli hle
      obtain ⟨j2, hj2, he2, hr2⟩ := hnew_link iss j hlj hle
      have hjeq : j1 = j2 := by omega
      subst hjeq
      obtain ⟨r1, hmem1, -, hb1, hd1⟩ := hgm j1 hj1 i hr1
      obtain ⟨r2, hmem2, -, hb2, hd2⟩ := hgm j1 hj1 j hr2
      obtain ⟨r1c, hr1c, hb1c, hd1c⟩ := hremsrc i ri hmi
      obtain ⟨r2c, hr2c, hb2c, hd2c⟩ := hremsrc j rj hmj
      have e1 : r1c = r1 := keyed_mem_unique hinv.wf.rem_nodup hr1c hmem1
      have e2 : r2c = r2 := keyed_mem_unique hinv.wf.rem_nodup hr2c hmem2
      constructor
      · rw [← hb1c, e1, hb1, ← hb2c, e2, hb2]
      · rw [← hd1c, e1, hd1, ← hd2c, e2, hd2]
    · rintro ⟨hbeq, hdeq⟩
      obtain ⟨r1c, hr1c, hb1c, hd1c⟩ := hremsrc i ri hmi
      obtain ⟨r2c, hr2c, hb2c, hd2c⟩ := hremsrc j rj hmj
      have hn1 := hinv.new_rem i r1c hr1c hgei
      have hn2 := hinv.new_rem j r2c hr2c hgej
      have hkey : (r1c.benchmark_id, r1c.due_date) = (r2c.benchmark_id, r2c.due_date) :=
        Prod.ext (by rw [hb1c, hb2c, hbeq]) (by rw [hd1c, hd2c, hdeq])
      have hgi := hn1.2.2.2.2
      have hgj := hn2.2.2.2.2
      rw [hkey] at hgi
      unfold groupOfList at hgi hgj
      cases hfq : st.remediations_needing_issues.find?
          (fun p => decide (p.1 = (r2c.benchmark_id, r2c.due_date))) with
      | none =>
          rw [hfq] at hgi
          simp at hgi
      | some q =>
          rw [hfq] at hgi hgj
          simp only [Option.map_some', Option.getD_some] at hgi hgj
          obtain ⟨jdx, hje⟩ := find?_index _ st.remediations_needing_issues q hfq
          refine ⟨db.next_issue_id + jdx.1, Nat.le_add_right _ _, ?_, ?_⟩
          · rw [hlinks]
            apply List.mem_append_right
            refine (mem_issue_links_from _ _ _ _).mpr ⟨jdx.1, jdx.isLt, rfl, ?_⟩
            have hq : st.remediations_needing_issues.get ⟨jdx.1, jdx.isLt⟩ = q := hje
            rw [hq]
            exact hgi
          · rw [hlinks]
            apply List.mem_append_right
            refine (mem_issue_links_from _ _ _ _).mpr ⟨jdx.1, jdx.isLt, rfl, ?_⟩
            have hq : st.remediations_needing_issues.get ⟨jdx.1, jdx.isLt⟩ = q := hje
            rw [hq]
            exact hgj
  · intro rid iss1 iss2 hle1 hle2 hm1 hm2
    obtain ⟨j1, hj1, he1, hr1⟩ := hnew_link iss1 rid hm1 hle1
    obtain ⟨j2, hj2, he2, hr2⟩ := hnew_link iss2 rid hm2 hle2
    obtain ⟨r1, hmem1, -, hb1, hd1⟩ := hgm j1 hj1 rid hr1
    obtain ⟨r2, hmem2, -, hb2, hd2⟩ := hgm j2 hj2 rid hr2
    have e12 : r1 = r2 := keyed_mem_unique hinv.wf.rem_nodup hmem1 hmem2
    have k1 : (st.remediations_needing_issues.get ⟨j1, hj1⟩).1
        = (r1.benchmark_id, r1.due_date) := Prod.ext hb1.symm hd1.symm
    have k2 : (st.remediations_needing_issues.get ⟨j2, hj2⟩).1
        = (r2.benchmark_id, r2.due_date) := Prod.ext hb2.symm hd2.symm
    have hkeys : (st.remediations_needing_issues.get ⟨j1, hj1⟩).1
        = (st.remediations_needing_issues.get ⟨j2, hj2⟩).1 := by
      rw [k1, k2, e12]
    have hjeq := nodup_keys_get_inj st.remediations_needing_issues j1 j2 hj1 hj2
      hinv.group_keys_nodup hkeys
    omega

/-- C5 witness: ingesting two equal-CVSS failing hosts of one benchmark
into the fresh store yields one new issue linking remediations 1 and 2,
by the grouping theorem applied to that run. -/
theorem new_issues_group_new_remediations_witness :
    ∃ iss, emptyDB.next_issue_id ≤ iss ∧ (iss, 1) ∈ db_pair.issue_remediations ∧
      (iss, 2) ∈ db_pair.issue_remediations :=
  ((new_issues_group_new_remediations_by_benchmark_and_due_date emptyDB [rowA, rowSame]
      100 db_pair ⟨2, 0, 0⟩ dbwf_empty one_open_empty rfl).2.1 1
      ⟨1, 1, none, "open", 115⟩ 2 ⟨1, 1, none, "open", 115⟩
      (by decide) (by decide) (by decide) (by decide)).mpr ⟨rfl, rfl⟩

/-- C6: the severity band of a CVSS value is Critical from 9.0 up,
High from 7.0 up, Medium from 4.0 up, Low above 0, Info at 0 or below
and for an absent/empty value, Unknown for a non-numeric unparseable
value; and the computed due date is the analysis date plus the window
of the band: Critical 15 days, High 30, Medium 90, Low 180, Info 180,
Unknown 180. -/
theorem severity_band_and_due_date_windows :
    (∀ q : ℚ, 9 ≤ q → get_cvss_range (Cvss.num q) = "Critical") ∧
    (∀ q : ℚ, 7 ≤ q → q < 9 → get_cvss_range (Cvss.num q) = "High") ∧
    (∀ q : ℚ, 4 ≤ q → q < 7 → get_cvss_range (Cvss.num q) = "Medium") ∧
    (∀ q : ℚ, 0 < q → q < 4 → get_cvss_range (Cvss.num q) = "Low") ∧
    (∀ q : ℚ, q ≤ 0 → get_cvss_range (Cvss.num q) = "Info") ∧
    get_cvss_range Cvss.blank = "Info" ∧
    (∀ s, get_cvss_range (Cvss.malformed s) = "Unknown") ∧
    (∀ c d, get_cvss_range c = "Critical" → calculate_due_date c d = d + 15) ∧
    (∀ c d, get_cvss_range c = "High" → calculate_due_date c d = d + 30) ∧
    (∀ c d, get_cvss_range c = "Medium" → calculate_due_date c d = d + 90) ∧
    (∀ c d, get_cvss_range c = "Low" → calculate_due_date c d = d + 180) ∧
    (∀ c d, get_cvss_range c = "Info" → calculate_due_date c d = d + 180) ∧
    (∀ c d, get_cvss_range c = "Unknown" → calculate_due_date c d = d + 180) := by
  refine ⟨?_, ?_, ?_, ?_, ?_, rfl, fun s => rfl, ?_, ?_, ?_, ?_, ?_, ?_⟩
  · intro q h
    simp only [get_cvss_range]
    rw [if_pos h]
  · intro q h1 h2
    simp only [get_cvss_range]
    rw [if_neg (not_le.mpr h2), if_pos h1]
  · intro q h1 h2
    simp only [get_cvss_range]
    rw [if_neg (not_le.mpr (by linarith)), if_neg (not_le.mpr h2), if_pos h1]
  · intro q h1 h2
    simp only [get_cvss_range]
    rw [if_neg (not_le.mpr (by linarith)), if_neg (not_le.mpr (by linarith)),
      if_neg (not_le.mpr h2), if_pos h1]
  · intro q h
    simp only [get_cvss_range]
    rw [if_neg (not_le.mpr (by linarith)), if_neg (not_le.mpr (by linarith)),
      if_neg (not_le.mpr (by linarith)), if_neg (not_lt.mpr h)]
  all_goals intro c d h
  all_goals unfold calculate_due_date
  all_goals rw [h]
  all_goals rfl

/-- C6 witness: the theorem applied at concrete scores and dates. -/
theorem severity_band_and_due_date_windows_witness :
    get_cvss_range (Cvss.num 10) = "Critical" ∧
    get_cvss_range (Cvss.num 8) = "High" ∧
    get_cvss_range (Cvss.num 5) = "Medium" ∧
    get_cvss_range (Cvss.num 2) = "Low" ∧
    get_cvss_range (Cvss.num 0) = "Info" ∧
    calculate_due_date (Cvss.num 10) 100 = 115 ∧
    calculate_due_date (Cvss.num 8) 100 = 130 ∧
    calculate_due_date (Cvss.num 5) 100 = 190 ∧
    calculate_due_date (Cvss.num 2) 100 = 280 ∧
    calculate_due_date Cvss.blank 100 = 280 ∧
    calculate_due_date (Cvss.malformed "abc") 100 = 280 := by
  obtain ⟨hc, hh, hm, hl, hi, hb, hu, wc, wh, wm, wl, wi, wu⟩ :=
    severity_band_and_due_date_windows
  exact ⟨hc 10 (by norm_num), hh 8 (by norm_num) (by norm_num),
    hm 5 (by norm_num) (by norm_num), hl 2 (by norm_num) (by norm_num),
    hi 0 (by norm_num),
    wc (Cvss.num 10) 100 (hc 10 (by norm_num)),
    wh (Cvss.num 8) 100 (hh 8 (by norm_num) (by norm_num)),
    wm (Cvss.num 5) 100 (hm 5 (by norm_num) (by norm_num)),
    wl (Cvss.num 2) 100 (hl 2 (by norm_num) (by norm_num)),
    wi Cvss.blank 100 hb,
    wu (Cvss.malformed "abc") 100 (hu "abc")⟩

/-- C7: the pure due-date computation is total and degrades malformed
CVSS to the 180 day window, but the row-processing loop is not total in
the CVSS field: building the benchmark_data tuple applies float() to a
truthy unparseable CVSS cell and raises ValueError, so ingesting such a
row fails before the due-date computation is ever reached. -/
theorem malformed_cvss_raises_during_row_processing :
    (∀ s d, calculate_due_date (Cvss.malformed s) d = d + 180) ∧
    (∀ d, calculate_due_date Cvss.blank d = d + 180) ∧
    process_upload_dataframe emptyDB [rowBad] 100 =
      .error "could not convert string to float: abc" :=
  ⟨fun _ _ => rfl, fun _ => rfl, rfl⟩

/-- C1 counterevidence: ingesting rowA on date 100 and then an empty
scan on date 200 resolves the only remediation of issue 1, yet the
issue stays open, because process_upload_dataframe never invokes the
issue-closure pass; applying the defined but uncalled pass
mark_issues_as_resolved_if_no_open_remediations would have resolved
it. -/
theorem ingestion_leaves_fully_remediated_issue_open :
    db_after_scan2.remediations = [(1, ⟨1, 1, none, "resolved", 115⟩)] ∧
    db_after_scan2.issues = [(1, ⟨1, 115, 100, "open", none⟩)] ∧
    db_after_scan2.issue_remediations = [(1, 1)] ∧
    (mark_issues_as_resolved_if_no_open_remediations db_after_scan2 200).issues
      = [(1, ⟨1, 115, 100, "resolved", some 200⟩)] := by
  refine ⟨by decide, by decide, by decide, by decide⟩

/-- C2 counterexample: remediation 1 is open before the empty scan on
date 200 (scan id 2) and none of its findings is in that scans active
set, and the closure step does resolve it, but the empty-active-set
branch leaves resolved_in_scan NULL instead of stamping scan 2. -/
theorem closure_empty_active_set_leaves_resolved_in_scan_null :
    process_upload_dataframe db_after_scan1 [] 200 = .ok (db_after_scan2, ⟨0, 0, 0⟩) ∧
    db_after_scan1.remediations = [(1, ⟨1, 1, none, "open", 115⟩)] ∧
    db_after_scan2.scans = [(1, 100), (2, 200)] ∧
    db_after_scan2.remediations = [(1, ⟨1, 1, none, "resolved", 115⟩)] := by
  refine ⟨rfl, by decide, by decide, by decide⟩

/-- C4 counterexample: the helpers commit mid-scan, so a storage
failure between the issue-creation step and the closure step leaves the
partial scan committed: the store then holds the new remediation and
issue of the aborted scan instead of being exactly the pre-scan
store. -/
theorem mid_scan_commit_persists_partial_state :
    upload_committed_at_issue_step emptyDB [rowA] 100 = .ok db_mid_scan1 ∧
    db_mid_scan1.remediations = [(1, ⟨1, 1, none, "open", 115⟩)] ∧
    db_mid_scan1.issues = [(1, ⟨1, 115, 100, "open", none⟩)] ∧
    db_mid_scan1 ≠ emptyDB := by
  refine ⟨rfl, by decide, by decide, by decide⟩

/-- C8 counterexample: on a date whose scan already exists,
get_or_create_scan neither fails nor reports the duplicate: the
INSERT OR IGNORE plus SELECT silently returns the existing scan id and
leaves the store unchanged. -/
theorem get_or_create_scan_silently_reuses_duplicate_date :
    check_if_scan_exists db_after_scan1 100 = true ∧
    get_or_create_scan db_after_scan1 100 = (db_after_scan1, 1) := by
  refine ⟨by decide, by decide⟩

/-- C10 counterexample: re-processing the existing date 100 through the
single-scan path reuses scan id 1; the closure step of that run then
resolves remediation 1, whose first-seen scan is that same current scan
id 1, so a remediation whose first-seen scan is the current scan is not
open when the scan commits. -/
theorem rescanned_date_resolves_remediation_first_seen_in_current_scan :
    get_or_create_scan db_after_scan1 100 = (db_after_scan1, 1) ∧
    process_upload_dataframe db_after_scan1 [rowOther] 100 = .ok (db_rescan, ⟨1, 0, 1⟩) ∧
    (1, (⟨1, 1, some 1, "resolved", 115⟩ : Remediation)) ∈ db_rescan.remediations := by
  refine ⟨by decide, rfl, by decide⟩

end SecurityTracker
